import Mathlib

/-! SuGaR viewer: the display-mode toggle of `sugar_viewer/src/main.jsx`.

The viewer holds a Gaussian-splat scene (`viewer`), a loaded mesh graph (`obj`)
and a module-level flag `wireframe`.  Three click handlers, `onHybridClick`,
`onTextureClick` and `onWireframeClick`, flip the two `visible` attributes, the
flag, the `material.wireframe` attribute of every mesh node, and the text of
the two HUD elements `.hudstill` and `.hud`.

The embedding is a state record and one pure function per handler.  The
JavaScript operators of the two bitwise guards are modelled on numbers, with
the boolean-to-number coercion made explicit.
-/

namespace SugarViewer

/-! ## The mesh graph -/

/-- The attributes of one node of the loaded graph that the handlers read or
write: the type tag `isMesh` and `material.wireframe`.  On a node that is not a
mesh the second field is never read nor written. -/
structure NodeAttrs where
  isMesh : Bool
  materialWireframe : Bool
  deriving DecidableEq, Repr

/-- A node of the graph returned by the OBJ loader, with its children. -/
inductive Object3D where
  | node (attrs : NodeAttrs) (children : List Object3D)

mutual
/-- The library method `Object3D.traverse(callback)`: the callback runs on the
node itself, then the traversal recurses into each child in order.  The
callbacks of this program only touch attributes of the node they are given. -/
def Object3D.traverse (callback : NodeAttrs → NodeAttrs) : Object3D → Object3D
  | .node attrs children => .node (callback attrs) (traverseChildren callback children)
/-- The loop over `children` inside `traverse`. -/
def traverseChildren (callback : NodeAttrs → NodeAttrs) : List Object3D → List Object3D
  | [] => []
  | c :: cs => c.traverse callback :: traverseChildren callback cs
end

mutual
/-- The attributes of all nodes of a graph, in traversal order. -/
def Object3D.nodes : Object3D → List NodeAttrs
  | .node attrs children => attrs :: nodesOfChildren children
/-- The attributes of all nodes below a list of children. -/
def nodesOfChildren : List Object3D → List NodeAttrs
  | [] => []
  | c :: cs => c.nodes ++ nodesOfChildren cs
end

/-- Every mesh node of the graph has `material.wireframe` equal to `w`. -/
def Object3D.allMeshWireframe (t : Object3D) (w : Bool) : Prop :=
  ∀ a ∈ t.nodes, a.isMesh = true → a.materialWireframe = w

instance (t : Object3D) (w : Bool) : Decidable (t.allMeshWireframe w) := by
  unfold Object3D.allMeshWireframe
  infer_instance

/-! ## JavaScript operators of the guards -/

/-- The coercion of a boolean operand of a bitwise operator: `true` is 1 and
`false` is 0. -/
def toInt32 (b : Bool) : Nat := if b then 1 else 0

/-- The operator `|` on operands already coerced to numbers. -/
def bitOr (a b : Nat) : Nat := a ||| b

/-- The operator `&` on operands already coerced to numbers. -/
def bitAnd (a b : Nat) : Nat := a &&& b

/-- The truthiness of a number in an `if` condition: every number but 0. -/
def truthy (n : Nat) : Bool := n != 0

/-! ## State and handlers -/

/-- The mutable state the handlers act on. -/
structure State where
  /-- The attribute `viewer.visible` of the splat scene. -/
  viewerVisible : Bool
  /-- The attribute `obj.visible` of the mesh graph. -/
  objVisible : Bool
  /-- The module variable `wireframe`. -/
  wireframe : Bool
  /-- The mesh graph `obj` with the material attributes of its nodes. -/
  obj : Object3D
  /-- The `textContent` of the element `.hudstill`. -/
  hudstill : String
  /-- The `textContent` of the element `.hud`. -/
  hud : String

/-- The title rendered in `.hudstill` at startup. -/
def startupTitle : String := "SuGaR - Viewer"

/-- The description rendered in `.hud` at startup. -/
def startupDescription : String :=
  "Surface-Aligned Gaussian Splatting for Efficient 3D Mesh Reconstruction and High-Quality Mesh Rendering"

/-- The state set up at startup, for a loaded graph `obj`: `viewer.visible = true`,
`obj.visible = false`, `wireframe = false`, and the HUD as rendered. -/
def initialState (obj : Object3D) : State :=
  { viewerVisible := true
    objVisible := false
    wireframe := false
    obj := obj
    hudstill := startupTitle
    hud := startupDescription }

/-- The function `updateText(mainText, buttonText)`. -/
def updateText (s : State) (mainText buttonText : String) : State :=
  { s with hudstill := mainText, hud := buttonText }

/-- The callback given to `obj.traverse` by the two mesh handlers. -/
def setWireframe (w : Bool) (child : NodeAttrs) : NodeAttrs :=
  if child.isMesh then { child with materialWireframe := w } else child

/-- The function `onHybridClick`. -/
def onHybridClick (s : State) : State :=
  if !s.viewerVisible then
    let s := { s with viewerVisible := true }
    let s := { s with objVisible := false }
    updateText s "SuGaR: Hybrid representation"
      "Mesh covered with thin 3D Gaussians, and rendered using Gaussian splatting"
  else s

/-- The guard of `onTextureClick`: `!obj.visible | (obj.visible & wireframe)`. -/
def textureGuard (objVisible wireframe : Bool) : Bool :=
  truthy (bitOr (toInt32 (!objVisible)) (bitAnd (toInt32 objVisible) (toInt32 wireframe)))

/-- The guard of `onWireframeClick`: `!obj.visible | (obj.visible & !wireframe)`. -/
def wireframeGuard (objVisible wireframe : Bool) : Bool :=
  truthy (bitOr (toInt32 (!objVisible)) (bitAnd (toInt32 objVisible) (toInt32 (!wireframe))))

/-- The function `onTextureClick`. -/
def onTextureClick (s : State) : State :=
  if textureGuard s.objVisible s.wireframe then
    let s := { s with wireframe := false }
    let s := { s with obj := s.obj.traverse (setWireframe false) }
    let s := { s with viewerVisible := false }
    let s := { s with objVisible := true }
    updateText s "SuGaR: Textured mesh"
      "Mesh covered with a traditional UV texture, and rendered with ambient light"
  else s

/-- The function `onWireframeClick`. -/
def onWireframeClick (s : State) : State :=
  if wireframeGuard s.objVisible s.wireframe then
    let s := { s with wireframe := true }
    let s := { s with obj := s.obj.traverse (setWireframe true) }
    let s := { s with viewerVisible := false }
    let s := { s with objVisible := true }
    updateText s "SuGaR: Wireframe mesh" "Mesh rendered with wireframe"
  else s

/-- The three buttons. -/
inductive Click where
  | hybrid
  | texture
  | wireframe
  deriving DecidableEq, Repr

/-- The handler bound to a button by `addEventListener`. -/
def handle (s : State) : Click → State
  | .hybrid => onHybridClick s
  | .texture => onTextureClick s
  | .wireframe => onWireframeClick s

/-- The state after a sequence of clicks, handled one after the other. -/
def run (s : State) (clicks : List Click) : State :=
  clicks.foldl handle s

/-- The three display modes. -/
inductive DisplayMode where
  | Hybrid
  | Textured
  | Wireframe
  deriving DecidableEq, Repr

/-- The mode a button selects. -/
def Click.mode : Click → DisplayMode
  | .hybrid => .Hybrid
  | .texture => .Textured
  | .wireframe => .Wireframe

/-- The state shows a mode, read off `viewer.visible`, `obj.visible` and the
`material.wireframe` attribute of the mesh nodes. -/
def State.shows (s : State) : DisplayMode → Prop
  | .Hybrid => s.viewerVisible = true ∧ s.objVisible = false
  | .Textured => s.viewerVisible = false ∧ s.objVisible = true ∧ s.obj.allMeshWireframe false
  | .Wireframe => s.viewerVisible = false ∧ s.objVisible = true ∧ s.obj.allMeshWireframe true

/-- The title a handler writes when it fires. -/
def Click.title : Click → String
  | .hybrid => "SuGaR: Hybrid representation"
  | .texture => "SuGaR: Textured mesh"
  | .wireframe => "SuGaR: Wireframe mesh"

/-- A small graph: a group holding a mesh whose material is wireframed, a
line object, and a mesh with a mesh below it. -/
def sampleObj : Object3D :=
  .node ⟨false, false⟩
    [ .node ⟨true, true⟩ [],
      .node ⟨false, true⟩ [],
      .node ⟨true, false⟩ [ .node ⟨true, true⟩ [] ] ]

/-- The graph has at least one mesh node. -/
def Object3D.hasMesh (t : Object3D) : Prop :=
  ∃ a ∈ t.nodes, a.isMesh = true

/-- The mode as the guards of the handlers read it: off `viewer.visible`,
`obj.visible` and the module variable `wireframe`. -/
def State.selected (s : State) : DisplayMode → Prop
  | .Hybrid => s.viewerVisible = true
  | .Textured => s.viewerVisible = false ∧ s.objVisible = true ∧ s.wireframe = false
  | .Wireframe => s.viewerVisible = false ∧ s.objVisible = true ∧ s.wireframe = true

/-- Exactly one of the two visuals is visible. -/
def State.exactlyOneVisible (s : State) : Prop :=
  (s.viewerVisible = true ∧ s.objVisible = false) ∨
    (s.viewerVisible = false ∧ s.objVisible = true)

/-- The guard of `onTextureClick` written with the logical operators:
mesh not visible, or mesh visible but currently wireframed. -/
def textureGuardLogical (objVisible wireframe : Bool) : Bool :=
  !objVisible || (objVisible && wireframe)

/-- The guard of `onWireframeClick` written with the logical operators:
mesh not visible, or mesh visible but currently not wireframed. -/
def wireframeGuardLogical (objVisible wireframe : Bool) : Bool :=
  !objVisible || (objVisible && !wireframe)

/-- The handler `onTextureClick` with its guard replaced by the logical one. -/
def onTextureClickLogical (s : State) : State :=
  if textureGuardLogical s.objVisible s.wireframe then
    let s := { s with wireframe := false }
    let s := { s with obj := s.obj.traverse (setWireframe false) }
    let s := { s with viewerVisible := false }
    let s := { s with objVisible := true }
    updateText s "SuGaR: Textured mesh"
      "Mesh covered with a traditional UV texture, and rendered with ambient light"
  else s

/-- The handler `onWireframeClick` with its guard replaced by the logical one. -/
def onWireframeClickLogical (s : State) : State :=
  if wireframeGuardLogical s.objVisible s.wireframe then
    let s := { s with wireframe := true }
    let s := { s with obj := s.obj.traverse (setWireframe true) }
    let s := { s with viewerVisible := false }
    let s := { s with objVisible := true }
    updateText s "SuGaR: Wireframe mesh" "Mesh rendered with wireframe"
  else s

/-- The invariant of the reachable states: the two visuals are complementary,
and while the mesh is visible its materials and the title follow the flag. -/
structure Inv (s : State) : Prop where
  excl : s.viewerVisible = !s.objVisible
  mats : s.objVisible = true → s.obj.allMeshWireframe s.wireframe
  title : s.objVisible = true →
    s.hudstill = if s.wireframe then Click.wireframe.title else Click.texture.title

/-- The HUD after the clicks `clicks` while the splat scene is visible: as
long as only the hybrid button was clicked the splat scene is visible and the
HUD shows the startup texts; afterwards the title is the hybrid one. -/
def HybridTitle (clicks : List Click) (s : State) : Prop :=
  ((∀ x ∈ clicks, x = Click.hybrid) →
      s.viewerVisible = true ∧ s.hudstill = startupTitle ∧ s.hud = startupDescription) ∧
    (¬ (∀ x ∈ clicks, x = Click.hybrid) → s.viewerVisible = true →
      s.hudstill = Click.hybrid.title)

/-! ## Lemmas on the graph and the guards -/

mutual
theorem nodes_traverse (cb : NodeAttrs → NodeAttrs) :
    ∀ t : Object3D, (t.traverse cb).nodes = t.nodes.map cb
  | .node a cs => by
    simp [Object3D.traverse, Object3D.nodes, nodesOfChildren_traverse cb cs]
theorem nodesOfChildren_traverse (cb : NodeAttrs → NodeAttrs) :
    ∀ cs : List Object3D, nodesOfChildren (traverseChildren cb cs) = (nodesOfChildren cs).map cb
  | [] => by simp [traverseChildren, nodesOfChildren]
  | c :: cs => by
    simp [traverseChildren, nodesOfChildren, nodes_traverse cb c,
      nodesOfChildren_traverse cb cs]
end

theorem allMeshWireframe_traverse (t : Object3D) (w : Bool) :
    (t.traverse (setWireframe w)).allMeshWireframe w := by
  intro a ha hm
  rw [nodes_traverse, List.mem_map] at ha
  obtain ⟨b, _, rfl⟩ := ha
  unfold setWireframe at hm ⊢
  split <;> simp_all

theorem textureGuard_eq (v w : Bool) : textureGuard v w = (!v || (v && w)) := by
  cases v <;> cases w <;> decide

theorem wireframeGuard_eq (v w : Bool) : wireframeGuard v w = (!v || (v && !w)) := by
  cases v <;> cases w <;> decide

theorem run_snoc (s : State) (clicks : List Click) (c : Click) :
    run s (clicks ++ [c]) = handle (run s clicks) c := by
  simp [run, List.foldl_append]

theorem onHybridClick_hidden (s : State) (h : s.viewerVisible = false) :
    onHybridClick s =
      { s with
        viewerVisible := true
        objVisible := false
        hudstill := Click.hybrid.title
        hud := "Mesh covered with thin 3D Gaussians, and rendered using Gaussian splatting" } := by
  simp [onHybridClick, h, updateText, Click.title]

theorem onHybridClick_visible (s : State) (h : s.viewerVisible = true) :
    onHybridClick s = s := by
  simp [onHybridClick, h]

theorem onTextureClick_fires (s : State) (h : s.objVisible = false ∨ s.wireframe = true) :
    onTextureClick s =
      { s with
        wireframe := false
        obj := s.obj.traverse (setWireframe false)
        viewerVisible := false
        objVisible := true
        hudstill := Click.texture.title
        hud := "Mesh covered with a traditional UV texture, and rendered with ambient light" } := by
  have hg : textureGuard s.objVisible s.wireframe = true := by
    rw [textureGuard_eq]; rcases h with h | h <;> simp [h]
  simp [onTextureClick, hg, updateText, Click.title]

theorem onTextureClick_skips (s : State) (ho : s.objVisible = true) (hw : s.wireframe = false) :
    onTextureClick s = s := by
  simp [onTextureClick, textureGuard_eq, ho, hw]

theorem onWireframeClick_fires (s : State) (h : s.objVisible = false ∨ s.wireframe = false) :
    onWireframeClick s =
      { s with
        wireframe := true
        obj := s.obj.traverse (setWireframe true)
        viewerVisible := false
        objVisible := true
        hudstill := Click.wireframe.title
        hud := "Mesh rendered with wireframe" } := by
  have hg : wireframeGuard s.objVisible s.wireframe = true := by
    rw [wireframeGuard_eq]; rcases h with h | h <;> simp [h]
  simp [onWireframeClick, hg, updateText, Click.title]

theorem onWireframeClick_skips (s : State) (ho : s.objVisible = true) (hw : s.wireframe = true) :
    onWireframeClick s = s := by
  simp [onWireframeClick, wireframeGuard_eq, ho, hw]

/-! ## The invariant of the reachable states -/

theorem inv_initialState (obj : Object3D) : Inv (initialState obj) :=
  ⟨rfl, fun h => by simp [initialState] at h, fun h => by simp [initialState] at h⟩

theorem inv_onHybridClick (s : State) (h : Inv s) : Inv (onHybridClick s) := by
  cases hv : s.viewerVisible
  · rw [onHybridClick_hidden s hv]
    exact ⟨rfl, fun h => by simp at h, fun h => by simp at h⟩
  · rw [onHybridClick_visible s hv]; exact h

theorem inv_onTextureClick (s : State) (h : Inv s) : Inv (onTextureClick s) := by
  by_cases hg : s.objVisible = false ∨ s.wireframe = true
  · rw [onTextureClick_fires s hg]
    exact ⟨rfl, fun _ => allMeshWireframe_traverse _ _, fun _ => by simp⟩
  · rw [onTextureClick_skips s (by simpa using fun h => hg (Or.inl h))
      (by simpa using fun h => hg (Or.inr h))]
    exact h

theorem inv_onWireframeClick (s : State) (h : Inv s) : Inv (onWireframeClick s) := by
  by_cases hg : s.objVisible = false ∨ s.wireframe = false
  · rw [onWireframeClick_fires s hg]
    exact ⟨rfl, fun _ => allMeshWireframe_traverse _ _, fun _ => by simp⟩
  · rw [onWireframeClick_skips s (by simpa using fun h => hg (Or.inl h))
      (by simpa using fun h => hg (Or.inr h))]
    exact h

theorem inv_handle (s : State) (c : Click) (h : Inv s) : Inv (handle s c) := by
  cases c
  · exact inv_onHybridClick s h
  · exact inv_onTextureClick s h
  · exact inv_onWireframeClick s h

theorem inv_run (obj : Object3D) (clicks : List Click) :
    Inv (run (initialState obj) clicks) := by
  induction clicks using List.reverseRecOn with
  | nil => exact inv_initialState obj
  | append_singleton l c ih => rw [run_snoc]; exact inv_handle _ c ih

theorem after_onHybridClick (s : State) : (onHybridClick s).viewerVisible = true := by
  cases hv : s.viewerVisible
  · rw [onHybridClick_hidden s hv]
  · rw [onHybridClick_visible s hv]; exact hv

theorem after_onTextureClick (s : State) :
    (onTextureClick s).objVisible = true ∧ (onTextureClick s).wireframe = false := by
  by_cases hg : s.objVisible = false ∨ s.wireframe = true
  · rw [onTextureClick_fires s hg]; exact ⟨rfl, rfl⟩
  · have ho : s.objVisible = true := by simpa using fun h => hg (Or.inl h)
    have hw : s.wireframe = false := by simpa using fun h => hg (Or.inr h)
    rw [onTextureClick_skips s ho hw]; exact ⟨ho, hw⟩

theorem after_onWireframeClick (s : State) :
    (onWireframeClick s).objVisible = true ∧ (onWireframeClick s).wireframe = true := by
  by_cases hg : s.objVisible = false ∨ s.wireframe = false
  · rw [onWireframeClick_fires s hg]; exact ⟨rfl, rfl⟩
  · have ho : s.objVisible = true := by simpa using fun h => hg (Or.inl h)
    have hw : s.wireframe = true := by simpa using fun h => hg (Or.inr h)
    rw [onWireframeClick_skips s ho hw]; exact ⟨ho, hw⟩

theorem viewer_hidden_of_obj_visible (s : State) (h : Inv s) (ho : s.objVisible = true) :
    s.viewerVisible = false := by
  rw [h.excl, ho]; rfl

theorem hybridTitle_run (obj : Object3D) (clicks : List Click) :
    HybridTitle clicks (run (initialState obj) clicks) := by
  induction clicks using List.reverseRecOn with
  | nil =>
    refine ⟨fun _ => ⟨rfl, rfl, rfl⟩, fun h => absurd (fun x hx => ?_) h⟩
    simp at hx
  | append_singleton l c ih =>
    rw [run_snoc]
    have hinv := inv_run obj l
    cases c with
    | hybrid =>
      have hall : (∀ x ∈ l ++ [Click.hybrid], x = Click.hybrid) ↔ ∀ x ∈ l, x = Click.hybrid := by
        constructor
        · intro h x hx
          exact h x (List.mem_append_left _ hx)
        · intro h x hx
          rcases List.mem_append.1 hx with hx | hx
          · exact h x hx
          · simpa using hx
      rw [HybridTitle, hall]
      cases hv : (run (initialState obj) l).viewerVisible
      · simp only [handle]
        rw [onHybridClick_hidden _ hv]
        refine ⟨fun h => ?_, fun _ _ => rfl⟩
        have := (ih.1 h).1
        rw [hv] at this
        cases this
      · simp only [handle]
        rw [onHybridClick_visible _ hv]
        exact ih
    | texture =>
      have ho := (after_onTextureClick (run (initialState obj) l)).1
      have hv := viewer_hidden_of_obj_visible _ (inv_onTextureClick _ hinv) ho
      refine ⟨fun h => ?_, fun _ h => ?_⟩
      · have := h Click.texture (by simp)
        cases this
      · simp only [handle] at h
        rw [hv] at h
        cases h
    | wireframe =>
      have ho := (after_onWireframeClick (run (initialState obj) l)).1
      have hv := viewer_hidden_of_obj_visible _ (inv_onWireframeClick _ hinv) ho
      refine ⟨fun h => ?_, fun _ h => ?_⟩
      · have := h Click.wireframe (by simp)
        cases this
      · simp only [handle] at h
        rw [hv] at h
        cases h

theorem shows_of_selected (s : State) (h : Inv s) (m : DisplayMode) (hm : s.selected m) :
    s.shows m := by
  cases m with
  | Hybrid =>
    have hv : s.viewerVisible = true := hm
    refine ⟨hv, ?_⟩
    have := h.excl
    rw [hv] at this
    cases ho : s.objVisible
    · rfl
    · rw [ho] at this; cases this
  | Textured =>
    obtain ⟨hv, ho, hw⟩ := hm
    exact ⟨hv, ho, by simpa [hw] using h.mats ho⟩
  | Wireframe =>
    obtain ⟨hv, ho, hw⟩ := hm
    exact ⟨hv, ho, by simpa [hw] using h.mats ho⟩

theorem selected_of_shows (s : State) (h : Inv s) (hmesh : s.obj.hasMesh) (m : DisplayMode)
    (hm : s.shows m) : s.selected m := by
  obtain ⟨a, ha, hmesh⟩ := hmesh
  cases m with
  | Hybrid => exact hm.1
  | Textured =>
    obtain ⟨hv, ho, hall⟩ := hm
    refine ⟨hv, ho, ?_⟩
    rw [← h.mats ho a ha hmesh, hall a ha hmesh]
  | Wireframe =>
    obtain ⟨hv, ho, hall⟩ := hm
    refine ⟨hv, ho, ?_⟩
    rw [← h.mats ho a ha hmesh, hall a ha hmesh]

theorem handle_selected (s : State) (c : Click) (hm : s.selected c.mode) : handle s c = s := by
  cases c with
  | hybrid => exact onHybridClick_visible s hm
  | texture => exact onTextureClick_skips s hm.2.1 hm.2.2
  | wireframe => exact onWireframeClick_skips s hm.2.1 hm.2.2

/-! ## The properties of the display-mode toggle -/

/-- C1: mutual exclusivity of the two visuals.  Starting from the startup state
(`viewer.visible = true`, `obj.visible = false`, `wireframe = false`), for every
finite sequence of clicks on the three buttons and every prefix of it (so after
each call), exactly one of `viewer.visible` and `obj.visible` is true. -/
theorem exactly_one_visible_after_each_click (obj : Object3D) (clicks : List Click) (n : Nat) :
    (run (initialState obj) (clicks.take n)).exactlyOneVisible := by
  have h := (inv_run obj (clicks.take n)).excl
  unfold State.exactlyOneVisible
  cases ho : (run (initialState obj) (clicks.take n)).objVisible
  · rw [ho] at h; exact Or.inl ⟨h, rfl⟩
  · rw [ho] at h; exact Or.inr ⟨h, rfl⟩

/-- C2: the display mode matches the last call made.  Starting from the startup
state on any loaded graph, after every sequence of clicks that ends with the
click `c`, the state shows the mode of `c`: Hybrid is viewer visible and mesh
hidden, Textured is viewer hidden, mesh visible and `material.wireframe = false`
on every mesh node, Wireframe the same with `material.wireframe = true`. -/
theorem mode_matches_last_click (obj : Object3D) (clicks : List Click) (c : Click) :
    (run (initialState obj) (clicks ++ [c])).shows c.mode := by
  have hinv := inv_run obj (clicks ++ [c])
  apply shows_of_selected _ hinv
  rw [run_snoc] at hinv ⊢
  cases c with
  | hybrid => exact after_onHybridClick _
  | texture =>
    have h := after_onTextureClick (run (initialState obj) clicks)
    exact ⟨viewer_hidden_of_obj_visible _ hinv h.1, h.1, h.2⟩
  | wireframe =>
    have h := after_onWireframeClick (run (initialState obj) clicks)
    exact ⟨viewer_hidden_of_obj_visible _ hinv h.1, h.1, h.2⟩

/-- C3: every selector is idempotent.  For every state, calling `onHybridClick`
twice yields the same state as calling it once, and the same holds for
`onTextureClick` and for `onWireframeClick`. -/
theorem selectors_idempotent (s : State) :
    onHybridClick (onHybridClick s) = onHybridClick s ∧
    onTextureClick (onTextureClick s) = onTextureClick s ∧
    onWireframeClick (onWireframeClick s) = onWireframeClick s := by
  refine ⟨onHybridClick_visible _ (after_onHybridClick s), ?_, ?_⟩
  · exact onTextureClick_skips _ (after_onTextureClick s).1 (after_onTextureClick s).2
  · exact onWireframeClick_skips _ (after_onWireframeClick s).1 (after_onWireframeClick s).2

/-- C4: re-selecting the current mode does nothing.  In every state reached
from the startup state by clicks, the handler of the current mode returns the
state unchanged (both visibilities, the flag, every `material.wireframe`, title
and description), whether the current mode is read off the visibilities and the
flag `wireframe` as the guards do, off the materials of a graph that has a mesh
node, or taken to be the mode of the last click. -/
theorem reselecting_current_mode_changes_nothing (obj : Object3D) (clicks : List Click)
    (c : Click) :
    ((run (initialState obj) clicks).selected c.mode →
      handle (run (initialState obj) clicks) c = run (initialState obj) clicks) ∧
    ((run (initialState obj) clicks).obj.hasMesh → (run (initialState obj) clicks).shows c.mode →
      handle (run (initialState obj) clicks) c = run (initialState obj) clicks) ∧
    handle (run (initialState obj) (clicks ++ [c])) c = run (initialState obj) (clicks ++ [c]) := by
  refine ⟨handle_selected _ c, fun hmesh hm => ?_, ?_⟩
  · exact handle_selected _ c (selected_of_shows _ (inv_run obj clicks) hmesh _ hm)
  · rw [run_snoc]
    cases c with
    | hybrid => exact onHybridClick_visible _ (after_onHybridClick _)
    | texture =>
      exact onTextureClick_skips _ (after_onTextureClick _).1 (after_onTextureClick _).2
    | wireframe =>
      exact onWireframeClick_skips _ (after_onWireframeClick _).1 (after_onWireframeClick _).2

/-- C4 at a concrete input: after one click on the texture button on the sample
graph the state is in mode Textured under each reading, and a second click on
the texture button returns it unchanged. -/
theorem reselecting_current_mode_changes_nothing_witness :
    (run (initialState sampleObj) [Click.texture]).selected DisplayMode.Textured ∧
    (run (initialState sampleObj) [Click.texture]).obj.hasMesh ∧
    (run (initialState sampleObj) [Click.texture]).shows DisplayMode.Textured ∧
    handle (run (initialState sampleObj) [Click.texture]) Click.texture
      = run (initialState sampleObj) [Click.texture] :=
  ⟨⟨rfl, rfl, rfl⟩, ⟨⟨true, false⟩, by decide, rfl⟩, ⟨rfl, rfl, by decide⟩,
    (reselecting_current_mode_changes_nothing sampleObj [Click.texture] Click.texture).1
      ⟨rfl, rfl, rfl⟩⟩

/-- C5: texture click from Hybrid.  For every state in which the viewer is
visible and the mesh is hidden, on any graph, after `onTextureClick` the viewer
is hidden, the mesh is visible, the flag `wireframe` is false,
`material.wireframe` is false on every mesh node, the title is exactly
"SuGaR: Textured mesh" and the description is exactly "Mesh covered with a
traditional UV texture, and rendered with ambient light". -/
theorem texture_click_from_hybrid (s : State) (_hv : s.viewerVisible = true)
    (ho : s.objVisible = false) :
    (onTextureClick s).viewerVisible = false ∧
    (onTextureClick s).objVisible = true ∧
    (onTextureClick s).wireframe = false ∧
    (onTextureClick s).obj.allMeshWireframe false ∧
    (onTextureClick s).hudstill = "SuGaR: Textured mesh" ∧
    (onTextureClick s).hud =
      "Mesh covered with a traditional UV texture, and rendered with ambient light" := by
  rw [onTextureClick_fires s (Or.inl ho)]
  exact ⟨rfl, rfl, rfl, allMeshWireframe_traverse _ _, rfl, rfl⟩

/-- C5 at the startup state on the sample graph. -/
theorem texture_click_from_hybrid_witness :
    (initialState sampleObj).viewerVisible = true ∧
    (initialState sampleObj).objVisible = false ∧
    (onTextureClick (initialState sampleObj)).viewerVisible = false ∧
    (onTextureClick (initialState sampleObj)).objVisible = true ∧
    (onTextureClick (initialState sampleObj)).wireframe = false ∧
    (onTextureClick (initialState sampleObj)).obj.allMeshWireframe false ∧
    (onTextureClick (initialState sampleObj)).hudstill = "SuGaR: Textured mesh" ∧
    (onTextureClick (initialState sampleObj)).hud =
      "Mesh covered with a traditional UV texture, and rendered with ambient light" :=
  ⟨rfl, rfl, texture_click_from_hybrid (initialState sampleObj) rfl rfl⟩

/-- C6: wireframe click from Textured.  For every state reached from the
startup state by clicks in which the viewer is hidden, the mesh is visible and
the flag `wireframe` is false, after `onWireframeClick` the attribute
`material.wireframe` is true on every mesh node of the graph, `viewer.visible`
and `obj.visible` are as before the call (false and true), and the title is
exactly "SuGaR: Wireframe mesh". -/
theorem wireframe_click_from_textured (obj : Object3D) (clicks : List Click)
    (hv : (run (initialState obj) clicks).viewerVisible = false)
    (ho : (run (initialState obj) clicks).objVisible = true)
    (hw : (run (initialState obj) clicks).wireframe = false) :
    (onWireframeClick (run (initialState obj) clicks)).obj.allMeshWireframe true ∧
    (onWireframeClick (run (initialState obj) clicks)).viewerVisible
      = (run (initialState obj) clicks).viewerVisible ∧
    (onWireframeClick (run (initialState obj) clicks)).objVisible
      = (run (initialState obj) clicks).objVisible ∧
    (onWireframeClick (run (initialState obj) clicks)).viewerVisible = false ∧
    (onWireframeClick (run (initialState obj) clicks)).objVisible = true ∧
    (onWireframeClick (run (initialState obj) clicks)).hudstill = "SuGaR: Wireframe mesh" := by
  rw [onWireframeClick_fires _ (Or.inr hw)]
  exact ⟨allMeshWireframe_traverse _ _, hv.symm, ho.symm, rfl, rfl, rfl⟩

/-- C6 at the state reached by one click on the texture button on the sample
graph. -/
theorem wireframe_click_from_textured_witness :
    (run (initialState sampleObj) [Click.texture]).viewerVisible = false ∧
    (run (initialState sampleObj) [Click.texture]).objVisible = true ∧
    (run (initialState sampleObj) [Click.texture]).wireframe = false ∧
    (onWireframeClick (run (initialState sampleObj) [Click.texture])).obj.allMeshWireframe true ∧
    (onWireframeClick (run (initialState sampleObj) [Click.texture])).viewerVisible = false ∧
    (onWireframeClick (run (initialState sampleObj) [Click.texture])).objVisible = true ∧
    (onWireframeClick (run (initialState sampleObj) [Click.texture])).hudstill
      = "SuGaR: Wireframe mesh" :=
  have h := wireframe_click_from_textured sampleObj [Click.texture] rfl rfl rfl
  ⟨rfl, rfl, rfl, h.1, h.2.2.2.1, h.2.2.2.2.1, h.2.2.2.2.2⟩

/-- C7: Textured, Wireframe, Textured.  For every starting state, reachable or
not, on any graph, after `onTextureClick`, then `onWireframeClick`, then
`onTextureClick`, the mesh is visible and `material.wireframe` is false on
every mesh node. -/
theorem textured_wireframe_textured (s : State) :
    (onTextureClick (onWireframeClick (onTextureClick s))).objVisible = true ∧
    (onTextureClick (onWireframeClick (onTextureClick s))).obj.allMeshWireframe false := by
  have h := after_onWireframeClick (onTextureClick s)
  rw [onTextureClick_fires _ (Or.inr h.2)]
  exact ⟨rfl, allMeshWireframe_traverse _ _⟩

/-- C8: the startup state.  Before any handler call the state has mode Hybrid,
that is `viewer.visible = true` and `obj.visible = false`, the flag `wireframe`
is false, and the title in `.hudstill` is exactly "SuGaR - Viewer". -/
theorem startup_state_is_hybrid (obj : Object3D) :
    (initialState obj).shows DisplayMode.Hybrid ∧
    (initialState obj).viewerVisible = true ∧
    (initialState obj).objVisible = false ∧
    (initialState obj).wireframe = false ∧
    (initialState obj).hudstill = "SuGaR - Viewer" ∧
    run (initialState obj) [] = initialState obj :=
  ⟨⟨rfl, rfl⟩, rfl, rfl, rfl, rfl, rfl⟩

/-- C9: the bitwise guards stand in for the logical ones.  For all booleans `v`
of `obj.visible` and `w` of `wireframe`, the guard `!v | (v & w)` is truthy
exactly when `!v || (v && w)` is true and `!v | (v & !w)` exactly when
`!v || (v && !w)` is true; hence on every state each of the two handlers
behaves as the handler written with the logical operators. -/
theorem bitwise_guards_refine_logical :
    (∀ v w : Bool, textureGuard v w = true ↔ textureGuardLogical v w = true) ∧
    (∀ v w : Bool, wireframeGuard v w = true ↔ wireframeGuardLogical v w = true) ∧
    (∀ s : State, onTextureClick s = onTextureClickLogical s) ∧
    (∀ s : State, onWireframeClick s = onWireframeClickLogical s) := by
  refine ⟨fun v w => ?_, fun v w => ?_, fun s => ?_, fun s => ?_⟩
  · rw [textureGuard_eq, textureGuardLogical]
  · rw [wireframeGuard_eq, wireframeGuardLogical]
  · simp only [onTextureClick, onTextureClickLogical, textureGuard_eq, textureGuardLogical]
  · simp only [onWireframeClick, onWireframeClickLogical, wireframeGuard_eq,
      wireframeGuardLogical]

/-- C10: the HUD title follows the call history, not the mode alone.  Starting
from the startup state, after every sequence of clicks ending with the click
`c`: if the sequence holds only hybrid clicks the title and the description are
still the startup texts; otherwise the title is the title of `c`.  So whenever
the viewer is visible the title is "SuGaR: Hybrid representation" exactly when
some click of the sequence was on the texture or the wireframe button. -/
theorem title_follows_history (obj : Object3D) (clicks : List Click) (c : Click) :
    ((∀ x ∈ clicks ++ [c], x = Click.hybrid) →
      (run (initialState obj) (clicks ++ [c])).hudstill = "SuGaR - Viewer" ∧
      (run (initialState obj) (clicks ++ [c])).hud = startupDescription) ∧
    (¬ (∀ x ∈ clicks ++ [c], x = Click.hybrid) →
      (run (initialState obj) (clicks ++ [c])).hudstill = c.title) ∧
    ((run (initialState obj) (clicks ++ [c])).viewerVisible = true →
      ((run (initialState obj) (clicks ++ [c])).hudstill = "SuGaR: Hybrid representation" ↔
        ∃ x ∈ clicks ++ [c], x = Click.texture ∨ x = Click.wireframe)) := by
  have ht := hybridTitle_run obj (clicks ++ [c])
  have hinv := inv_run obj (clicks ++ [c])
  refine ⟨fun h => (ht.1 h).2, fun h => ?_, fun hv => ?_⟩
  · cases c with
    | hybrid =>
      refine ht.2 h ?_
      rw [run_snoc]
      exact after_onHybridClick _
    | texture =>
      rw [run_snoc] at hinv ⊢
      have ha := after_onTextureClick (run (initialState obj) clicks)
      have := hinv.title ha.1
      simp only [handle] at this ⊢
      rw [this]
      simp [ha.2]
    | wireframe =>
      rw [run_snoc] at hinv ⊢
      have ha := after_onWireframeClick (run (initialState obj) clicks)
      have := hinv.title ha.1
      simp only [handle] at this ⊢
      rw [this]
      simp [ha.2]
  · by_cases hall : ∀ x ∈ clicks ++ [c], x = Click.hybrid
    · rw [(ht.1 hall).2.1]
      constructor
      · intro h; exact absurd h (by decide)
      · rintro ⟨x, hx, hx2⟩
        rw [hall x hx] at hx2
        rcases hx2 with h | h <;> cases h
    · constructor
      · intro _
        by_contra hne
        apply hall
        intro x hx
        cases x with
        | hybrid => rfl
        | texture => exact absurd ⟨_, hx, Or.inl rfl⟩ hne
        | wireframe => exact absurd ⟨_, hx, Or.inr rfl⟩ hne
      · intro _
        exact ht.2 hall hv

end SugarViewer
